import Mathlib

/-!
Shallow embedding of the block-graph reconstruction code of this repository:
`src/pdf_to_sheet.py` (`build_kv_map`, `extract_text`, `extract_tables`,
`append_form_data`, `append_table_data`, `process_pdf`, the startup check in
`main`) and `src/process_invoice.py` (`parse_response`, `load_config`).

Python dictionaries are embedded as association lists with Python-dict
insertion semantics (`dictInsert` updates the existing key in place, else
appends); `os.getenv` is embedded as a total function `String → String` in
which the empty string stands for an unset or empty variable (both are falsy
in the Python code, which tests values with truthiness only).  A Python
`KeyError` raised by a direct subscript is embedded as an `Except.error`.
-/

/-- A typed relationship of a Textract block: `rel["Type"]` and
`rel.get("Ids")`, where a missing `Ids` entry behaves exactly like an empty
list everywhere in the code (the code only tests truthiness and iterates). -/
structure Relationship where
  relType : String
  ids : List String := []
deriving DecidableEq, Repr

/-- A Textract block.  Optional attributes read with `.get` default to the
falsy values the code treats them as: empty string, empty list.
`queryAlias` embeds `block.get("Query", {}).get("Alias")`, with the empty
string standing for a missing alias (the code only tests truthiness). -/
structure Block where
  id : String
  blockType : String
  entityTypes : List String := []
  relationships : List Relationship := []
  text : String := ""
  selectionStatus : String := ""
  rowIndex : Nat := 0
  columnIndex : Nat := 0
  queryAlias : String := ""
deriving DecidableEq, Repr

/-- Python-dict insertion: update the (unique) existing entry in place,
otherwise append at the end. -/
def dictInsert {κ α : Type} [DecidableEq κ] : List (κ × α) → κ → α → List (κ × α)
  | [], k, v => [(k, v)]
  | p :: m, k, v => if p.1 = k then (k, v) :: m else p :: dictInsert m k v

/-- Python-dict lookup (`d.get(k)`): the value at the first entry for `k`. -/
def dictGet {κ α : Type} [DecidableEq κ] : List (κ × α) → κ → Option α
  | [], _ => none
  | p :: m, k => if p.1 = k then some p.2 else dictGet m k

/-- `block_map` lookup: both scripts build `block_map` as a Python dict keyed
by block id over the whole collection, so a duplicated id keeps the later
block.  `none` stands for a `KeyError` on a direct subscript. -/
def blockMapFind (blocks : List Block) (i : String) : Option Block :=
  blocks.foldl (fun acc b => if b.id = i then some b else acc) none

/-- Python `str.strip()`: drop leading and trailing whitespace. -/
def strTrim (s : String) : String :=
  String.mk (((s.data.dropWhile Char.isWhitespace).reverse.dropWhile Char.isWhitespace).reverse)

/-- One child of the `extract_text` loop body (`pdf_to_sheet.py` lines 71-77):
look the id up in `block_map` (a miss is a `KeyError`), then append the
word text plus a space for a WORD child, `"X "` for a SELECTED
SELECTION_ELEMENT child, and nothing otherwise. -/
def childStep (blocks : List Block) (acc : String) (cid : String) : Except String String :=
  match blockMapFind blocks cid with
  | none => Except.error ("KeyError: " ++ cid)
  | some word =>
    if word.blockType = "WORD" then Except.ok (acc ++ word.text ++ " ")
    else if word.blockType = "SELECTION_ELEMENT" then
      if word.selectionStatus = "SELECTED" then Except.ok (acc ++ "X ")
      else Except.ok acc
    else Except.ok acc

/-- The inner `for cid in rel["Ids"]` loop of `extract_text`. -/
def childText (blocks : List Block) : List String → String → Except String String
  | [], acc => Except.ok acc
  | cid :: rest, acc =>
    match childStep blocks acc cid with
    | Except.error e => Except.error e
    | Except.ok acc' => childText blocks rest acc'

/-- The outer `for rel in block.get("Relationships", [])` loop of
`extract_text`: only relationships of type CHILD with a truthy id list are
walked. -/
def relsText (blocks : List Block) : List Relationship → String → Except String String
  | [], acc => Except.ok acc
  | rel :: rest, acc =>
    if rel.relType = "CHILD" ∧ rel.ids ≠ [] then
      match childText blocks rel.ids acc with
      | Except.error e => Except.error e
      | Except.ok acc' => relsText blocks rest acc'
    else relsText blocks rest acc

/-- `extract_text(block, block_map)` (`pdf_to_sheet.py` lines 65-78):
empty string for a falsy block, otherwise the accumulated child text,
stripped of leading and trailing whitespace. -/
def extract_text (blocks : List Block) : Option Block → Except String String
  | none => Except.ok ""
  | some b =>
    match relsText blocks b.relationships "" with
    | Except.error e => Except.error e
    | Except.ok s => Except.ok (strTrim s)

/-- The first loop of `build_kv_map` (`pdf_to_sheet.py` lines 44-51): build
`key_map` and `value_map`, Python dicts keyed by block id, partitioning
KEY_VALUE_SET blocks by whether "KEY" occurs in their entity types. -/
def kvMaps (blocks : List Block) : List (String × Block) × List (String × Block) :=
  blocks.foldl
    (fun acc b =>
      if b.blockType = "KEY_VALUE_SET" then
        if "KEY" ∈ b.entityTypes then (dictInsert acc.1 b.id b, acc.2)
        else (acc.1, dictInsert acc.2 b.id b)
      else acc)
    ([], [])

/-- `key_map` of `build_kv_map`. -/
def keyMapOf (blocks : List Block) : List (String × Block) :=
  (kvMaps blocks).1

/-- `value_map` of `build_kv_map`. -/
def valueMapOf (blocks : List Block) : List (String × Block) :=
  (kvMaps blocks).2

/-- The value-resolution loop of `build_kv_map` (lines 54-58): the last
relationship of type VALUE with a truthy id list determines
`value_map.get(rel["Ids"][0])`, which may itself be `None`. -/
def resolveValueBlock (vm : List (String × Block)) (rels : List Relationship) : Option Block :=
  rels.foldl
    (fun acc rel =>
      if rel.relType = "VALUE" then
        match rel.ids with
        | [] => acc
        | vid :: _ => dictGet vm vid
      else acc)
    none

/-- Line 60 of `build_kv_map`:
`val_text = extract_text(value_block, block_map) if value_block else ""`. -/
def valTextExtract (blocks : List Block) (vm : List (String × Block)) (kb : Block) :
    Except String String :=
  match resolveValueBlock vm kb.relationships with
  | some v => extract_text blocks (some v)
  | none => Except.ok ""

/-- The second loop of `build_kv_map` (lines 53-61): for each entry of
`key_map` in order, render the key text and the value text (empty when no
value block resolved) and store them in the `kv_pairs` dict. -/
def kvLoop (blocks : List Block) (vm : List (String × Block)) :
    List (String × Block) → List (String × String) → Except String (List (String × String))
  | [], acc => Except.ok acc
  | (_, kb) :: rest, acc =>
    match extract_text blocks (some kb) with
    | Except.error e => Except.error e
    | Except.ok keyText =>
      match valTextExtract blocks vm kb with
      | Except.error e => Except.error e
      | Except.ok valText => kvLoop blocks vm rest (dictInsert acc keyText valText)

/-- `build_kv_map(blocks)` (`pdf_to_sheet.py` lines 40-62). -/
def build_kv_map (blocks : List Block) : Except String (List (String × String)) :=
  kvLoop blocks (valueMapOf blocks) (keyMapOf blocks) []

/-- One cell id of the `extract_tables` inner loop (lines 89-94): look the id
up in `block_map` (a miss is a `KeyError`); when it is a CELL, render its
text and store it at `rows[RowIndex][ColumnIndex]` (Python `setdefault`
keeps the position of an existing row). -/
def cellStep (blocks : List Block) (rows : List (Nat × List (Nat × String)))
    (cid : String) : Except String (List (Nat × List (Nat × String))) :=
  match blockMapFind blocks cid with
  | none => Except.error ("KeyError: " ++ cid)
  | some cell =>
    if cell.blockType = "CELL" then
      match extract_text blocks (some cell) with
      | Except.error e => Except.error e
      | Except.ok t =>
        Except.ok (dictInsert rows cell.rowIndex
          (dictInsert ((dictGet rows cell.rowIndex).getD []) cell.columnIndex t))
    else Except.ok rows

/-- The `for cell_id in rel.get("Ids", [])` loop of `extract_tables`. -/
def cellsOfIds (blocks : List Block) :
    List String → List (Nat × List (Nat × String)) →
    Except String (List (Nat × List (Nat × String)))
  | [], rows => Except.ok rows
  | cid :: rest, rows =>
    match cellStep blocks rows cid with
    | Except.error e => Except.error e
    | Except.ok rows' => cellsOfIds blocks rest rows'

/-- The `for rel in block.get("Relationships", [])` loop of `extract_tables`
(lines 87-94): only relationships of type CHILD are walked. -/
def gridOfRels (blocks : List Block) :
    List Relationship → List (Nat × List (Nat × String)) →
    Except String (List (Nat × List (Nat × String)))
  | [], rows => Except.ok rows
  | rel :: rest, rows =>
    if rel.relType = "CHILD" then
      match cellsOfIds blocks rel.ids rows with
      | Except.error e => Except.error e
      | Except.ok rows' => gridOfRels blocks rest rows'
    else gridOfRels blocks rest rows

/-- Python `sorted` on a list of naturals (dict keys, hence distinct). -/
def sortNat (l : List Nat) : List Nat :=
  List.insertionSort (· ≤ ·) l

/-- The row-emission comprehension of `extract_tables` (line 98):
`[row.get(c, "") for c in sorted(row.keys())]`. -/
def rowValuesOf (row : List (Nat × String)) : List String :=
  (sortNat (row.map Prod.fst)).map (fun c => (dictGet row c).getD "")

/-- The table-emission loop of `extract_tables` (lines 95-99): rows in
ascending row-index order, each row's cells in ascending column-index
order. -/
def renderTable (g : List (Nat × List (Nat × String))) : List (List String) :=
  (sortNat (g.map Prod.fst)).map (fun r => rowValuesOf ((dictGet g r).getD []))

/-- The whole body of `extract_tables` for one TABLE block. -/
def tableOf (blocks : List Block) (b : Block) : Except String (List (List String)) :=
  match gridOfRels blocks b.relationships [] with
  | Except.error e => Except.error e
  | Except.ok g => Except.ok (renderTable g)

/-- The outer `for block in blocks` loop of `extract_tables` (lines 84-100),
appending one rendered table per TABLE block. -/
def tablesLoop (blocks : List Block) :
    List Block → List (List (List String)) → Except String (List (List (List String)))
  | [], acc => Except.ok acc
  | b :: rest, acc =>
    if b.blockType = "TABLE" then
      match tableOf blocks b with
      | Except.error e => Except.error e
      | Except.ok t => tablesLoop blocks rest (acc ++ [t])
    else tablesLoop blocks rest acc

/-- `extract_tables(blocks)` (`pdf_to_sheet.py` lines 81-101). -/
def extract_tables (blocks : List Block) : Except String (List (List (List String))) :=
  tablesLoop blocks blocks []

/-- `append_form_data(sh, data)` (lines 114-118) on an abstract worksheet (a
list of rows): read the header row (`row_values(1)`), shape one row by
looking each header up in the key-value dict with default empty string, and
append it. -/
def append_form_data (ws : List (List String)) (data : List (String × String)) :
    List (List String) :=
  ws ++ [(ws.headD []).map (fun h => (dictGet data h).getD "")]

/-- `append_table_data(sh, table, source_key)` (lines 121-124): append each
table row prefixed with the source key. -/
def append_table_data (ws : List (List String)) (table : List (List String))
    (sourceKey : String) : List (List String) :=
  ws ++ table.map (fun row => sourceKey :: row)

/-- `process_pdf` (lines 127-134) after the Textract call: reconstruct the
key-value dict, append the form row, reconstruct the tables and append each
of them to the table worksheet.  Returns the two updated worksheets. -/
def process_pdf (blocks : List Block) (formWs tableWs : List (List String))
    (key : String) : Except String (List (List String) × List (List String)) :=
  match build_kv_map blocks with
  | Except.error e => Except.error e
  | Except.ok kv =>
    match extract_tables blocks with
    | Except.error e => Except.error e
    | Except.ok ts =>
      Except.ok (append_form_data formWs kv,
        ts.foldl (fun w t => append_table_data w t key) tableWs)

/-- The startup check of `pdf_to_sheet.main` (lines 138-139):
`if not all([S3_BUCKET, SPREADSHEET_ID]): raise ValueError(...)`, where both
settings are read from the environment with no default. -/
def pdf_main_check (env : String → String) : Except String Unit :=
  if env "S3_BUCKET" = "" ∨ env "SPREADSHEET_ID" = "" then
    Except.error "S3_BUCKET and SPREADSHEET_ID environment variables must be set"
  else Except.ok ()

/-- The block loop of `parse_response` (`process_invoice.py` lines 75-83):
collect the query-result dict (a QUERY_RESULT block with a truthy alias
stores its own inline text under the alias) and the ordered list of LINE
texts. -/
def collectQR : List Block → List (String × String) → List String →
    List (String × String) × List String
  | [], results, lines => (results, lines)
  | b :: rest, results, lines =>
    if b.blockType = "QUERY_RESULT" then
      if b.queryAlias = "" then collectQR rest results lines
      else collectQR rest (dictInsert results b.queryAlias b.text) lines
    else if b.blockType = "LINE" then collectQR rest results (lines ++ [b.text])
    else collectQR rest results lines

/-- Split a character list at every occurrence of a separator character. -/
def splitOnChar (c : Char) : List Char → List (List Char)
  | [] => [[]]
  | x :: xs =>
    match splitOnChar c xs with
    | [] => [[x]]
    | g :: gs => if x = c then [] :: g :: gs else (x :: g) :: gs

/-- Read a nonempty all-digit character list as a natural number. -/
def toNatChars : List Char → Option Nat
  | [] => none
  | l => l.foldl
      (fun acc c =>
        match acc with
        | none => none
        | some n => if c.isDigit then some (n * 10 + (c.toNat - 48)) else none)
      (some 0)

/-- Two-digit zero padding, as `strftime` applies to `%m` and `%d`. -/
def pad2 (n : Nat) : String :=
  if n < 10 then "0" ++ toString n else toString n

/-- `dt.strftime("%Y/%m/%d")` on a parsed date. -/
def fmtDate (y m d : Nat) : String :=
  toString y ++ "/" ++ pad2 m ++ "/" ++ pad2 d

/-- Modelled from the spec: `dateutil.parser.parse(s, fuzzy=True)`, the
third-party lenient date parser whose code is not part of this repository.
The spec (section 4.3 and section 8) fixes only that parsing is lenient,
that `"2023-03-03"` parses to the date 2023-03-03, and that `"not a date"`
fails to parse; this model parses exactly the ISO `YYYY-MM-DD` shape and
fails on everything else. -/
def dateutil_parse (s : String) : Option (Nat × Nat × Nat) :=
  match splitOnChar '-' s.data with
  | [ys, ms, ds] =>
    match toNatChars ys, toNatChars ms, toNatChars ds with
    | some y, some m, some d =>
      if 1 ≤ m ∧ m ≤ 12 ∧ 1 ≤ d ∧ d ≤ 31 then some (y, m, d) else none
    | _, _, _ => none
  | _ => none

/-- `parse_response(response)` (`process_invoice.py` lines 71-93),
parameterised by the date parser `dp` (the third-party
`dateutil.parser.parse`).  After the block loop, a present "Date" entry is
reformatted through `dp` when parsing succeeds and kept unchanged when it
fails (the warning branch), and finally the newline-joined full text is
stored under "full_text". -/
def parse_response (dp : String → Option (Nat × Nat × Nat)) (blocks : List Block) :
    List (String × String) :=
  let rl := collectQR blocks [] []
  let results :=
    match dictGet rl.1 "Date" with
    | none => rl.1
    | some dtext =>
      match dp dtext with
      | some ymd => dictInsert rl.1 "Date" (fmtDate ymd.1 ymd.2.1 ymd.2.2)
      | none => rl.1
  dictInsert results "full_text" (String.intercalate "\n" rl.2)

/-- The required environment variables of `load_config`
(`process_invoice.py` lines 23-31), in source order. -/
def pi_env_vars : List String :=
  ["AWS_ACCESS_KEY_ID", "AWS_SECRET_ACCESS_KEY", "AWS_REGION", "S3_BUCKET_NAME",
   "OPENAI_API_KEY", "GOOGLE_SHEET_ID", "GOOGLE_CREDENTIALS_FILE"]

/-- The collection loop of `load_config` (lines 32-39): a falsy value joins
the `missing` list, a truthy one is stored in the config dict. -/
def load_collect (env : String → String) :
    List String → List (String × String) → List String →
    List (String × String) × List String
  | [], cfg, missing => (cfg, missing)
  | v :: rest, cfg, missing =>
    if env v = "" then load_collect env rest cfg (missing ++ [v])
    else load_collect env rest (dictInsert cfg v (env v)) missing

/-- `load_config()` (`process_invoice.py` lines 21-42): raise an
`EnvironmentError` naming every missing variable in one message, else return
the config dict. -/
def load_config (env : String → String) : Except String (List (String × String)) :=
  let cm := load_collect env pi_env_vars [] []
  if cm.2 = [] then Except.ok cm.1
  else Except.error ("Missing environment variables: " ++ String.intercalate ", " cm.2)

/-!
Specification-side definitions.  These restate, in direct structural form,
what the spec says the reconstruction computes; the theorems below relate
them to the embedded code.
-/

/-- The contribution of one child id to the rendered text, as the spec
describes it: the word text plus a space for a WORD child, the marker
`"X "` for a selected SELECTION_ELEMENT child, nothing otherwise. -/
def childContrib (blocks : List Block) (cid : String) : String :=
  match blockMapFind blocks cid with
  | none => ""
  | some w =>
    if w.blockType = "WORD" then w.text ++ " "
    else if w.blockType = "SELECTION_ELEMENT" ∧ w.selectionStatus = "SELECTED" then "X "
    else ""

/-- Concatenation of the contributions of a list of child ids. -/
def concatContribs (blocks : List Block) (cids : List String) : String :=
  cids.foldr (fun cid acc => childContrib blocks cid ++ acc) ""

/-- Concatenation over the relationships the code walks: each CHILD
relationship with a nonempty id list contributes its children's text, in
listed order. -/
def relsContrib (blocks : List Block) (rels : List Relationship) : String :=
  rels.foldr
    (fun rel acc =>
      (if rel.relType = "CHILD" ∧ rel.ids ≠ [] then concatContribs blocks rel.ids else "") ++ acc)
    ""

/-- The value text `build_kv_map` stores for a key block: the rendered text
of the resolved value block, or the empty string when none resolves. -/
def valTextOf (blocks : List Block) (kb : Block) : Except String String :=
  valTextExtract blocks (valueMapOf blocks) kb

/-- One rendered table per listed block, in order, as the spec states table
emission. -/
def tablesOfList (blocks : List Block) : List Block → Except String (List (List (List String)))
  | [] => Except.ok []
  | b :: rest =>
    match tableOf blocks b with
    | Except.error e => Except.error e
    | Except.ok t =>
      match tablesOfList blocks rest with
      | Except.error e => Except.error e
      | Except.ok ts => Except.ok (t :: ts)

/-- The text of the last QUERY_RESULT block carrying a given alias, starting
from an accumulator (the running dict value). -/
def lastAliasAux (a : String) : Option String → List Block → Option String
  | acc, [] => acc
  | acc, b :: rest =>
    lastAliasAux a
      (if b.blockType = "QUERY_RESULT" ∧ b.queryAlias = a then some b.text else acc) rest

/-- The text of the last QUERY_RESULT block carrying a given alias, or
`none` when the response holds no such block. -/
def lastAlias (blocks : List Block) (a : String) : Option String :=
  lastAliasAux a none blocks

/-- The texts of all LINE blocks, in input-collection order. -/
def lineTexts (blocks : List Block) : List String :=
  (blocks.filter (fun b => decide (b.blockType = "LINE"))).map Block.text

/-- Every CHILD relationship of the block has all its target ids present in
the block map. -/
def childResolved (blocks : List Block) (b : Block) : Prop :=
  ∀ rel ∈ b.relationships, rel.relType = "CHILD" →
    ∀ cid ∈ rel.ids, (blockMapFind blocks cid).isSome

instance childResolvedDecidable (blocks : List Block) (b : Block) :
    Decidable (childResolved blocks b) :=
  inferInstanceAs (Decidable (∀ rel ∈ b.relationships, rel.relType = "CHILD" →
    ∀ cid ∈ rel.ids, (blockMapFind blocks cid).isSome))

/-!
Concrete block collections, used to instantiate the theorems below.
-/

/-- WORD block helper: a WORD block with a given id and text. -/
def wordBlock (i t : String) : Block :=
  { id := i, blockType := "WORD", text := t }

/-- CELL block helper: a CELL at a (row, column) position whose single child
is a word block. -/
def cellBlock (i : String) (r c : Nat) (wid : String) : Block :=
  { id := i, blockType := "CELL", rowIndex := r, columnIndex := c,
    relationships := [{ relType := "CHILD", ids := [wid] }] }

/-- A sparse 2-row table: cells at (1,1)="A", (1,2)="B", (2,1)="C" and no
cell at (2,2). -/
def sparseBlocks : List Block :=
  [{ id := "t1", blockType := "TABLE",
     relationships := [{ relType := "CHILD", ids := ["c11", "c12", "c21"] }] },
   cellBlock "c11" 1 1 "wA", cellBlock "c12" 1 2 "wB", cellBlock "c21" 2 1 "wC",
   wordBlock "wA" "A", wordBlock "wB" "B", wordBlock "wC" "C"]

/-- A block whose only child is a selected SELECTION_ELEMENT. -/
def selParent : Block :=
  { id := "p1", blockType := "KEY_VALUE_SET",
    relationships := [{ relType := "CHILD", ids := ["s1"] }] }

/-- The collection holding `selParent` and its selected child. -/
def selBlocks : List Block :=
  [selParent,
   { id := "s1", blockType := "SELECTION_ELEMENT", selectionStatus := "SELECTED" }]

/-- A key block whose CHILD relationship points at an id that is absent from
the collection. -/
def danglingKey : Block :=
  { id := "kb", blockType := "KEY_VALUE_SET", entityTypes := ["KEY"],
    relationships := [{ relType := "CHILD", ids := ["ghost"] }] }

/-- A collection with a dangling CHILD target under a key block and another
under a TABLE block. -/
def danglingBlocks : List Block :=
  [danglingKey,
   { id := "tb", blockType := "TABLE",
     relationships := [{ relType := "CHILD", ids := ["ghost2"] }] }]

/-- Key-block helper: a KEY_VALUE_SET key block with one word child and one
VALUE relationship. -/
def keyBlock (i wid vid : String) : Block :=
  { id := i, blockType := "KEY_VALUE_SET", entityTypes := ["KEY"],
    relationships := [{ relType := "CHILD", ids := [wid] },
                      { relType := "VALUE", ids := [vid] }] }

/-- Value-block helper: a KEY_VALUE_SET value block with one word child. -/
def valueBlock (i wid : String) : Block :=
  { id := i, blockType := "KEY_VALUE_SET", entityTypes := ["VALUE"],
    relationships := [{ relType := "CHILD", ids := [wid] }] }

/-- Two key-value pairs whose key blocks render to the same key text
"Name", with values "Alice" and then "Bob". -/
def dupKeyBlocks : List Block :=
  [keyBlock "k1" "w1" "v1", valueBlock "v1" "wv1",
   keyBlock "k2" "w2" "v2", valueBlock "v2" "wv2",
   wordBlock "w1" "Name", wordBlock "wv1" "Alice",
   wordBlock "w2" "Name", wordBlock "wv2" "Bob"]

/-- One document with two key-value pairs ("Invoice"="123", "Total"="45")
and one 2-by-2 table. -/
def docBlocks : List Block :=
  [keyBlock "k1" "w1" "v1", valueBlock "v1" "wv1",
   keyBlock "k2" "w2" "v2", valueBlock "v2" "wv2",
   wordBlock "w1" "Invoice", wordBlock "wv1" "123",
   wordBlock "w2" "Total", wordBlock "wv2" "45",
   { id := "t1", blockType := "TABLE",
     relationships := [{ relType := "CHILD", ids := ["c11", "c12", "c21", "c22"] }] },
   cellBlock "c11" 1 1 "wA", cellBlock "c12" 1 2 "wB",
   cellBlock "c21" 2 1 "wC", cellBlock "c22" 2 2 "wD",
   wordBlock "wA" "A", wordBlock "wB" "B", wordBlock "wC" "C", wordBlock "wD" "D"]

/-- A response whose single block is a QUERY_RESULT for the alias "Date"
with inline text "2023-03-03". -/
def dateQr : Block :=
  { id := "q1", blockType := "QUERY_RESULT", queryAlias := "Date", text := "2023-03-03" }

/-- A response whose single block is a QUERY_RESULT for the alias "Date"
with inline text "not a date". -/
def badDateQr : Block :=
  { id := "q2", blockType := "QUERY_RESULT", queryAlias := "Date", text := "not a date" }

/-!
Lemmas about the dictionary embedding.
-/

theorem dictGet_dictInsert_self {κ α : Type} [DecidableEq κ] (m : List (κ × α)) (k : κ)
    (v : α) : dictGet (dictInsert m k v) k = some v := by
  induction m with
  | nil => simp [dictInsert, dictGet]
  | cons p m ih =>
    by_cases h : p.1 = k
    · simp [dictInsert, dictGet, h]
    · simp [dictInsert, dictGet, h, ih]

theorem dictGet_dictInsert_ne {κ α : Type} [DecidableEq κ] (m : List (κ × α)) {k k' : κ}
    (v : α) (h : k' ≠ k) : dictGet (dictInsert m k v) k' = dictGet m k' := by
  induction m with
  | nil => simp [dictInsert, dictGet, Ne.symm h]
  | cons p m ih =>
    by_cases hp : p.1 = k
    · have : ¬ p.1 = k' := by rw [hp]; exact Ne.symm h
      simp [dictInsert, dictGet, hp, Ne.symm h, this]
    · by_cases hq : p.1 = k'
      · simp [dictInsert, dictGet, hp, hq, h]
      · simp [dictInsert, dictGet, hp, hq, h, ih]

theorem mem_dictInsert {κ α : Type} [DecidableEq κ] {m : List (κ × α)} {k : κ} {v : α}
    {q : κ × α} (h : q ∈ dictInsert m k v) : q = (k, v) ∨ q ∈ m := by
  induction m with
  | nil => simpa [dictInsert] using h
  | cons p m ih =>
    by_cases hp : p.1 = k
    · simp only [dictInsert, hp, if_pos] at h
      rcases List.mem_cons.mp h with h | h
      · exact Or.inl h
      · exact Or.inr (List.mem_cons_of_mem _ h)
    · simp only [dictInsert, hp, if_neg, not_false_iff] at h
      rcases List.mem_cons.mp h with h | h
      · exact Or.inr (h ▸ List.mem_cons_self _ _)
      · rcases ih h with h | h
        · exact Or.inl h
        · exact Or.inr (List.mem_cons_of_mem _ h)

theorem dictGet_mem {κ α : Type} [DecidableEq κ] {m : List (κ × α)} {k : κ} {v : α}
    (h : dictGet m k = some v) : (k, v) ∈ m := by
  induction m with
  | nil => simp [dictGet] at h
  | cons p m ih =>
    by_cases hp : p.1 = k
    · simp only [dictGet, hp, if_pos] at h
      have : (k, v) = p := by
        cases p with
        | mk a b => cases hp; cases h; rfl
      exact this ▸ List.mem_cons_self _ _
    · simp only [dictGet, hp, if_neg, not_false_iff] at h
      exact List.mem_cons_of_mem _ (ih h)

theorem blockMapFind_aux {i : String} :
    ∀ (bs : List Block) (acc : Option Block) (b : Block),
      bs.foldl (fun a x => if x.id = i then some x else a) acc = some b →
      b ∈ bs ∨ acc = some b := by
  intro bs
  induction bs with
  | nil => intro acc b h; exact Or.inr h
  | cons x bs ih =>
    intro acc b h
    simp only [List.foldl_cons] at h
    rcases ih _ b h with h1 | h1
    · exact Or.inl (List.mem_cons_of_mem _ h1)
    · by_cases hx : x.id = i
      · rw [if_pos hx] at h1
        exact Or.inl (by cases h1; exact List.mem_cons_self _ _)
      · rw [if_neg hx] at h1
        exact Or.inr h1

theorem blockMapFind_mem {blocks : List Block} {i : String} {b : Block}
    (h : blockMapFind blocks i = some b) : b ∈ blocks := by
  rcases blockMapFind_aux blocks none b h with h1 | h1
  · exact h1
  · cases h1

theorem kvMaps_mem_aux :
    ∀ (bs : List Block) (acc : List (String × Block) × List (String × Block))
      (p : String × Block),
      (p ∈ (bs.foldl
          (fun acc b =>
            if b.blockType = "KEY_VALUE_SET" then
              if "KEY" ∈ b.entityTypes then (dictInsert acc.1 b.id b, acc.2)
              else (acc.1, dictInsert acc.2 b.id b)
            else acc) acc).1 →
        p ∈ acc.1 ∨ p.2 ∈ bs) ∧
      (p ∈ (bs.foldl
          (fun acc b =>
            if b.blockType = "KEY_VALUE_SET" then
              if "KEY" ∈ b.entityTypes then (dictInsert acc.1 b.id b, acc.2)
              else (acc.1, dictInsert acc.2 b.id b)
            else acc) acc).2 →
        p ∈ acc.2 ∨ p.2 ∈ bs) := by
  intro bs
  induction bs with
  | nil => intro acc p; exact ⟨fun h => Or.inl h, fun h => Or.inl h⟩
  | cons b bs ih =>
    intro acc p
    simp only [List.foldl_cons]
    by_cases hk : b.blockType = "KEY_VALUE_SET"
    · by_cases he : "KEY" ∈ b.entityTypes
      · simp only [hk, he, if_pos]
        constructor
        · intro h
          rcases (ih (dictInsert acc.1 b.id b, acc.2) p).1 h with h1 | h1
          · rcases mem_dictInsert h1 with h2 | h2
            · exact Or.inr (by rw [h2]; exact List.mem_cons_self _ _)
            · exact Or.inl h2
          · exact Or.inr (List.mem_cons_of_mem _ h1)
        · intro h
          rcases (ih (dictInsert acc.1 b.id b, acc.2) p).2 h with h1 | h1
          · exact Or.inl h1
          · exact Or.inr (List.mem_cons_of_mem _ h1)
      · simp only [hk, he, if_pos, if_neg, not_false_iff]
        constructor
        · intro h
          rcases (ih (acc.1, dictInsert acc.2 b.id b) p).1 h with h1 | h1
          · exact Or.inl h1
          · exact Or.inr (List.mem_cons_of_mem _ h1)
        · intro h
          rcases (ih (acc.1, dictInsert acc.2 b.id b) p).2 h with h1 | h1
          · rcases mem_dictInsert h1 with h2 | h2
            · exact Or.inr (by rw [h2]; exact List.mem_cons_self _ _)
            · exact Or.inl h2
          · exact Or.inr (List.mem_cons_of_mem _ h1)
    · simp only [hk, if_neg, not_false_iff]
      constructor
      · intro h
        rcases (ih acc p).1 h with h1 | h1
        · exact Or.inl h1
        · exact Or.inr (List.mem_cons_of_mem _ h1)
      · intro h
        rcases (ih acc p).2 h with h1 | h1
        · exact Or.inl h1
        · exact Or.inr (List.mem_cons_of_mem _ h1)

theorem keyMapOf_mem {blocks : List Block} {p : String × Block}
    (h : p ∈ keyMapOf blocks) : p.2 ∈ blocks := by
  rcases (kvMaps_mem_aux blocks ([], []) p).1 h with h1 | h1
  · cases h1
  · exact h1

theorem valueMapOf_mem {blocks : List Block} {p : String × Block}
    (h : p ∈ valueMapOf blocks) : p.2 ∈ blocks := by
  rcases (kvMaps_mem_aux blocks ([], []) p).2 h with h1 | h1
  · cases h1
  · exact h1

/-!
Lemmas about `build_kv_map`.
-/

theorem kvLoop_append (blocks : List Block) (vm : List (String × Block)) :
    ∀ (pre rest : List (String × Block)) (acc m : List (String × String)),
      kvLoop blocks vm (pre ++ rest) acc = Except.ok m →
      ∃ acc', kvLoop blocks vm rest acc' = Except.ok m := by
  intro pre
  induction pre with
  | nil => intro rest acc m h; exact ⟨acc, h⟩
  | cons p pre ih =>
    intro rest acc m h
    obtain ⟨i, kb⟩ := p
    rw [List.cons_append] at h
    cases h1 : extract_text blocks (some kb) with
    | error e => simp only [kvLoop, h1] at h; exact Except.noConfusion h
    | ok kt =>
      cases h2 : valTextExtract blocks vm kb with
      | error e => simp only [kvLoop, h1, h2] at h; exact Except.noConfusion h
      | ok vt =>
        simp only [kvLoop, h1, h2] at h
        exact ih rest (dictInsert acc kt vt) m h

theorem kvLoop_notin (blocks : List Block) (vm : List (String × Block)) :
    ∀ (entries : List (String × Block)) (acc m : List (String × String)) (kt : String),
      (∀ q ∈ entries, ∀ s, extract_text blocks (some q.2) = Except.ok s → s ≠ kt) →
      kvLoop blocks vm entries acc = Except.ok m →
      dictGet m kt = dictGet acc kt := by
  intro entries
  induction entries with
  | nil =>
    intro acc m kt _ h
    cases h
    rfl
  | cons p rest ih =>
    intro acc m kt hne h
    obtain ⟨i, kb⟩ := p
    cases h1 : extract_text blocks (some kb) with
    | error e => simp only [kvLoop, h1] at h; exact Except.noConfusion h
    | ok s =>
      cases h2 : valTextExtract blocks vm kb with
      | error e => simp only [kvLoop, h1, h2] at h; exact Except.noConfusion h
      | ok vt =>
        simp only [kvLoop, h1, h2] at h
        have hs : s ≠ kt := hne (i, kb) (List.mem_cons_self _ _) s h1
        have hrec := ih (dictInsert acc s vt) m kt
          (fun q hq => hne q (List.mem_cons_of_mem _ hq)) h
        rw [hrec, dictGet_dictInsert_ne _ _ (Ne.symm hs)]

/-- Claim C1: for every block collection, `build_kv_map` gives every key
block of `key_map` an entry keyed by its rendered key text whose value is
the rendered text of its resolved value block — the empty string when no
value block resolves, by definition of `valTextOf` — and when several key
blocks render to the same key text, the value of the last one in iteration
order is the one kept. -/
theorem build_kv_map_correct (blocks : List Block) (m : List (String × String))
    (pre post : List (String × Block)) (i : String) (kb : Block) (kt vt : String)
    (hm : build_kv_map blocks = Except.ok m)
    (hsplit : keyMapOf blocks = pre ++ (i, kb) :: post)
    (hkt : extract_text blocks (some kb) = Except.ok kt)
    (hvt : valTextOf blocks kb = Except.ok vt)
    (hlast : ∀ q ∈ post, ∀ s, extract_text blocks (some q.2) = Except.ok s → s ≠ kt) :
    dictGet m kt = some vt := by
  unfold build_kv_map at hm
  rw [hsplit] at hm
  obtain ⟨acc', h⟩ := kvLoop_append blocks (valueMapOf blocks) pre ((i, kb) :: post) [] m hm
  unfold valTextOf at hvt
  simp only [kvLoop, hkt, hvt] at h
  have hrec := kvLoop_notin blocks (valueMapOf blocks) post (dictInsert acc' kt vt) m kt hlast h
  rw [hrec, dictGet_dictInsert_self]

/-- Witness for C1 at a concrete collection: two key blocks both rendering
to "Name", with values "Alice" then "Bob"; the reconstruction keeps the
later value "Bob". -/
theorem build_kv_map_correct_witness :
    build_kv_map dupKeyBlocks = Except.ok [("Name", "Bob")] ∧
    dictGet [("Name", "Bob")] "Name" = some "Bob" :=
  ⟨rfl,
   build_kv_map_correct dupKeyBlocks [("Name", "Bob")]
     [("k1", keyBlock "k1" "w1" "v1")] [] "k2" (keyBlock "k2" "w2" "v2") "Name" "Bob"
     rfl rfl rfl rfl (by simp)⟩

/-!
Lemmas about `extract_tables`.
-/

theorem tablesLoop_filter (blocks : List Block) :
    ∀ (l : List Block) (acc : List (List (List String))),
      tablesLoop blocks l acc =
        match tablesOfList blocks (l.filter (fun b => decide (b.blockType = "TABLE"))) with
        | Except.error e => Except.error e
        | Except.ok ts => Except.ok (acc ++ ts) := by
  intro l
  induction l with
  | nil =>
    intro acc
    simp [tablesLoop, tablesOfList]
  | cons b rest ih =>
    intro acc
    by_cases hb : b.blockType = "TABLE"
    · rw [List.filter_cons_of_pos (by simp [hb])]
      cases h1 : tableOf blocks b with
      | error e =>
        simp [tablesLoop, hb, h1, tablesOfList]
      | ok t =>
        simp only [tablesLoop, hb, if_pos, h1, tablesOfList, ih (acc ++ [t])]
        cases h2 : tablesOfList blocks (rest.filter (fun b => decide (b.blockType = "TABLE"))) with
        | error e => simp [h2]
        | ok ts => simp [h2]
    · rw [List.filter_cons_of_neg (by simp [hb])]
      simp only [tablesLoop, hb, if_neg, not_false_iff, ih acc]

theorem sortNat_sorted (l : List Nat) : List.Sorted (· ≤ ·) (sortNat l) :=
  List.sorted_insertionSort _ l

theorem sortNat_perm (l : List Nat) : (sortNat l).Perm l :=
  List.perm_insertionSort _ l

/-- Claim C2: `extract_tables` emits one table per TABLE block in
input-collection order; a table's rows are emitted in ascending row-index
order and each row's cells in ascending column-index order, containing only
the observed columns (one output cell per stored cell, nothing filled in);
and the sparse example with cells (1,1)="A", (1,2)="B", (2,1)="C"
reconstructs to `[["A","B"],["C"]]`. -/
theorem extract_tables_correct (blocks : List Block) (ts : List (List (List String)))
    (h : extract_tables blocks = Except.ok ts) :
    tablesOfList blocks (blocks.filter (fun b => decide (b.blockType = "TABLE"))) =
      Except.ok ts ∧
    (∀ g : List (Nat × List (Nat × String)),
       List.Sorted (· ≤ ·) (sortNat (g.map Prod.fst)) ∧
       renderTable g =
         (sortNat (g.map Prod.fst)).map (fun r => rowValuesOf ((dictGet g r).getD []))) ∧
    (∀ row : List (Nat × String),
       List.Sorted (· ≤ ·) (sortNat (row.map Prod.fst)) ∧
       (rowValuesOf row).length = row.length) ∧
    extract_tables sparseBlocks = Except.ok [[["A", "B"], ["C"]]] := by
  refine ⟨?_, ?_, ?_, rfl⟩
  · rw [extract_tables, tablesLoop_filter blocks blocks []] at h
    cases h2 : tablesOfList blocks (blocks.filter (fun b => decide (b.blockType = "TABLE"))) with
    | error e => rw [h2] at h; exact Except.noConfusion h
    | ok ts' =>
      rw [h2] at h
      simp only [List.nil_append] at h
      exact h
  · intro g
    exact ⟨sortNat_sorted _, rfl⟩
  · intro row
    refine ⟨sortNat_sorted _, ?_⟩
    rw [rowValuesOf, List.length_map, (sortNat_perm _).length_eq, List.length_map]

/-- Witness for C2 at the sparse table collection. -/
theorem extract_tables_correct_witness :
    extract_tables sparseBlocks = Except.ok [[["A", "B"], ["C"]]] ∧
    tablesOfList sparseBlocks
        (sparseBlocks.filter (fun b => decide (b.blockType = "TABLE"))) =
      Except.ok [[["A", "B"], ["C"]]] :=
  ⟨rfl, (extract_tables_correct sparseBlocks [[["A", "B"], ["C"]]] rfl).1⟩

/-!
Totality of the reconstruction when every CHILD target resolves, and
behaviour at dangling relationship targets.
-/

theorem childStep_total {blocks : List Block} {cid : String} (acc : String)
    (h : (blockMapFind blocks cid).isSome) :
    ∃ acc', childStep blocks acc cid = Except.ok acc' := by
  unfold childStep
  cases h2 : blockMapFind blocks cid with
  | none => rw [h2] at h; simp at h
  | some w =>
    by_cases hw : w.blockType = "WORD"
    · exact ⟨acc ++ w.text ++ " ", by simp [hw]⟩
    · by_cases hs : w.blockType = "SELECTION_ELEMENT"
      · by_cases hsel : w.selectionStatus = "SELECTED"
        · exact ⟨acc ++ "X ", by simp [hw, hs, hsel]⟩
        · exact ⟨acc, by simp [hw, hs, hsel]⟩
      · exact ⟨acc, by simp [hw, hs]⟩

theorem childText_total (blocks : List Block) :
    ∀ (cids : List String) (acc : String),
      (∀ cid ∈ cids, (blockMapFind blocks cid).isSome) →
      ∃ s, childText blocks cids acc = Except.ok s := by
  intro cids
  induction cids with
  | nil => intro acc _; exact ⟨acc, rfl⟩
  | cons cid rest ih =>
    intro acc hres
    obtain ⟨acc', hstep⟩ := childStep_total acc (hres cid (List.mem_cons_self _ _))
    obtain ⟨s, hs⟩ := ih acc' (fun c hc => hres c (List.mem_cons_of_mem _ hc))
    exact ⟨s, by simp [childText, hstep, hs]⟩

theorem relsText_total (blocks : List Block) :
    ∀ (rels : List Relationship) (acc : String),
      (∀ rel ∈ rels, rel.relType = "CHILD" →
        ∀ cid ∈ rel.ids, (blockMapFind blocks cid).isSome) →
      ∃ s, relsText blocks rels acc = Except.ok s := by
  intro rels
  induction rels with
  | nil => intro acc _; exact ⟨acc, rfl⟩
  | cons rel rest ih =>
    intro acc hres
    by_cases hc : rel.relType = "CHILD" ∧ rel.ids ≠ []
    · obtain ⟨s1, h1⟩ := childText_total blocks rel.ids acc
        (fun cid hcid => hres rel (List.mem_cons_self _ _) hc.1 cid hcid)
      obtain ⟨s, hs⟩ := ih s1 (fun r hr => hres r (List.mem_cons_of_mem _ hr))
      exact ⟨s, by simp [relsText, hc, h1, hs]⟩
    · obtain ⟨s, hs⟩ := ih acc (fun r hr => hres r (List.mem_cons_of_mem _ hr))
      exact ⟨s, by simp [relsText, hc, hs]⟩

theorem extract_text_total {blocks : List Block} {b : Block}
    (h : childResolved blocks b) :
    ∃ s, extract_text blocks (some b) = Except.ok s := by
  obtain ⟨s, hs⟩ := relsText_total blocks b.relationships "" h
  exact ⟨strTrim s, by simp [extract_text, hs]⟩

theorem resolveValueBlock_aux (vm : List (String × Block)) :
    ∀ (rels : List Relationship) (acc : Option Block) (v : Block),
      rels.foldl
        (fun acc rel =>
          if rel.relType = "VALUE" then
            match rel.ids with
            | [] => acc
            | vid :: _ => dictGet vm vid
          else acc) acc = some v →
      (∃ k, (k, v) ∈ vm) ∨ acc = some v := by
  intro rels
  induction rels with
  | nil => intro acc v h; exact Or.inr h
  | cons rel rest ih =>
    intro acc v h
    rw [List.foldl_cons] at h
    rcases ih _ v h with h1 | h1
    · exact Or.inl h1
    · by_cases hr : rel.relType = "VALUE"
      · rw [if_pos hr] at h1
        cases hids : rel.ids with
        | nil => rw [hids] at h1; exact Or.inr h1
        | cons vid _ => rw [hids] at h1; exact Or.inl ⟨vid, dictGet_mem h1⟩
      · rw [if_neg hr] at h1; exact Or.inr h1

theorem resolveValueBlock_mem {vm : List (String × Block)} {rels : List Relationship}
    {v : Block} (h : resolveValueBlock vm rels = some v) : ∃ k, (k, v) ∈ vm := by
  rcases resolveValueBlock_aux vm rels none v h with h1 | h1
  · exact h1
  · cases h1

theorem kvLoop_total (blocks : List Block) (hall : ∀ b ∈ blocks, childResolved blocks b) :
    ∀ (entries : List (String × Block)) (acc : List (String × String)),
      (∀ q ∈ entries, q.2 ∈ blocks) →
      ∃ m, kvLoop blocks (valueMapOf blocks) entries acc = Except.ok m := by
  intro entries
  induction entries with
  | nil => intro acc _; exact ⟨acc, rfl⟩
  | cons p rest ih =>
    intro acc hmem
    obtain ⟨i, kb⟩ := p
    obtain ⟨kt, hkt⟩ := extract_text_total (hall kb (hmem (i, kb) (List.mem_cons_self _ _)))
    have hvt : ∃ vt, valTextExtract blocks (valueMapOf blocks) kb = Except.ok vt := by
      unfold valTextExtract
      cases hr : resolveValueBlock (valueMapOf blocks) kb.relationships with
      | none => exact ⟨"", rfl⟩
      | some v =>
        obtain ⟨k, hk⟩ := resolveValueBlock_mem hr
        exact extract_text_total (hall v (valueMapOf_mem hk))
    obtain ⟨vt, hvt⟩ := hvt
    obtain ⟨m, hm⟩ := ih (dictInsert acc kt vt) (fun q hq => hmem q (List.mem_cons_of_mem _ hq))
    exact ⟨m, by simp [kvLoop, hkt, hvt, hm]⟩

theorem cellStep_total {blocks : List Block} {cid : String}
    (rows : List (Nat × List (Nat × String)))
    (hall : ∀ b ∈ blocks, childResolved blocks b)
    (h : (blockMapFind blocks cid).isSome) :
    ∃ rows', cellStep blocks rows cid = Except.ok rows' := by
  unfold cellStep
  cases h2 : blockMapFind blocks cid with
  | none => rw [h2] at h; simp at h
  | some cell =>
    by_cases hc : cell.blockType = "CELL"
    · obtain ⟨t, ht⟩ := extract_text_total (hall cell (blockMapFind_mem h2))
      exact ⟨dictInsert rows cell.rowIndex
        (dictInsert ((dictGet rows cell.rowIndex).getD []) cell.columnIndex t),
        by simp [hc, ht]⟩
    · exact ⟨rows, by simp [hc]⟩

theorem cellsOfIds_total (blocks : List Block)
    (hall : ∀ b ∈ blocks, childResolved blocks b) :
    ∀ (cids : List String) (rows : List (Nat × List (Nat × String))),
      (∀ cid ∈ cids, (blockMapFind blocks cid).isSome) →
      ∃ rows', cellsOfIds blocks cids rows = Except.ok rows' := by
  intro cids
  induction cids with
  | nil => intro rows _; exact ⟨rows, rfl⟩
  | cons cid rest ih =>
    intro rows hres
    obtain ⟨rows1, h1⟩ := cellStep_total rows hall (hres cid (List.mem_cons_self _ _))
    obtain ⟨rows', h2⟩ := ih rows1 (fun c hc => hres c (List.mem_cons_of_mem _ hc))
    exact ⟨rows', by simp [cellsOfIds, h1, h2]⟩

theorem gridOfRels_total (blocks : List Block)
    (hall : ∀ b ∈ blocks, childResolved blocks b) :
    ∀ (rels : List Relationship) (rows : List (Nat × List (Nat × String))),
      (∀ rel ∈ rels, rel.relType = "CHILD" →
        ∀ cid ∈ rel.ids, (blockMapFind blocks cid).isSome) →
      ∃ rows', gridOfRels blocks rels rows = Except.ok rows' := by
  intro rels
  induction rels with
  | nil => intro rows _; exact ⟨rows, rfl⟩
  | cons rel rest ih =>
    intro rows hres
    by_cases hc : rel.relType = "CHILD"
    · obtain ⟨rows1, h1⟩ := cellsOfIds_total blocks hall rel.ids rows
        (fun cid hcid => hres rel (List.mem_cons_self _ _) hc cid hcid)
      obtain ⟨rows', h2⟩ := ih rows1 (fun r hr => hres r (List.mem_cons_of_mem _ hr))
      exact ⟨rows', by simp [gridOfRels, hc, h1, h2]⟩
    · obtain ⟨rows', h2⟩ := ih rows (fun r hr => hres r (List.mem_cons_of_mem _ hr))
      exact ⟨rows', by simp [gridOfRels, hc, h2]⟩

theorem tablesLoop_total (blocks : List Block)
    (hall : ∀ b ∈ blocks, childResolved blocks b) :
    ∀ (l : List Block) (acc : List (List (List String))),
      (∀ b ∈ l, b ∈ blocks) →
      ∃ ts, tablesLoop blocks l acc = Except.ok ts := by
  intro l
  induction l with
  | nil => intro acc _; exact ⟨acc, rfl⟩
  | cons b rest ih =>
    intro acc hmem
    by_cases hb : b.blockType = "TABLE"
    · obtain ⟨g, hg⟩ := gridOfRels_total blocks hall b.relationships []
        (hall b (hmem b (List.mem_cons_self _ _)))
      obtain ⟨ts, hts⟩ := ih (acc ++ [renderTable g]) (fun x hx => hmem x (List.mem_cons_of_mem _ hx))
      exact ⟨ts, by simp [tablesLoop, hb, tableOf, hg, hts]⟩
    · obtain ⟨ts, hts⟩ := ih acc (fun x hx => hmem x (List.mem_cons_of_mem _ hx))
      exact ⟨ts, by simp [tablesLoop, hb, hts]⟩

theorem resolveValueBlock_none (vm : List (String × Block)) :
    ∀ (rels : List Relationship),
      (∀ rel ∈ rels, ∀ vid ∈ rel.ids, dictGet vm vid = none) →
      resolveValueBlock vm rels = none := by
  have aux : ∀ (rels : List Relationship),
      (∀ rel ∈ rels, ∀ vid ∈ rel.ids, dictGet vm vid = none) →
      rels.foldl
        (fun acc rel =>
          if rel.relType = "VALUE" then
            match rel.ids with
            | [] => acc
            | vid :: _ => dictGet vm vid
          else acc) none = none := by
    intro rels
    induction rels with
    | nil => intro _; rfl
    | cons rel rest ih =>
      intro hd
      rw [List.foldl_cons]
      have hstep :
          (if rel.relType = "VALUE" then
            match rel.ids with
            | [] => (none : Option Block)
            | vid :: _ => dictGet vm vid
          else none) = none := by
        by_cases hr : rel.relType = "VALUE"
        · rw [if_pos hr]
          cases hids : rel.ids with
          | nil => rfl
          | cons vid rest2 =>
            have := hd rel (List.mem_cons_self _ _) vid (by rw [hids]; exact List.mem_cons_self _ _)
            simp [this]
        · rw [if_neg hr]
      rw [hstep]
      exact ih (fun r hr => hd r (List.mem_cons_of_mem _ hr))
  intro rels hd
  exact aux rels hd

/-- Claim C3 (amended): when every CHILD relationship target in the
collection resolves, the whole reconstruction raises no exception — in
particular a VALUE relationship whose targets are absent from `value_map`
is treated as if the relationship were absent; but a CHILD relationship
with an unresolvable target raises a lookup error (see the
counterexample). -/
theorem dangling_relationship_behavior (blocks : List Block)
    (hall : ∀ b ∈ blocks, childResolved blocks b) :
    (∃ m, build_kv_map blocks = Except.ok m) ∧
    (∃ ts, extract_tables blocks = Except.ok ts) ∧
    (∀ b ∈ blocks, ∃ s, extract_text blocks (some b) = Except.ok s) ∧
    (∀ rels : List Relationship,
      (∀ rel ∈ rels, ∀ vid ∈ rel.ids, dictGet (valueMapOf blocks) vid = none) →
      resolveValueBlock (valueMapOf blocks) rels = none) := by
  refine ⟨?_, ?_, ?_, resolveValueBlock_none _⟩
  · exact kvLoop_total blocks hall (keyMapOf blocks) [] (fun q hq => keyMapOf_mem hq)
  · exact tablesLoop_total blocks hall blocks [] (fun b hb => hb)
  · intro b hb
    exact extract_text_total (hall b hb)

/-- Counterexample to Claim C3 as stated: a CHILD relationship whose target
id is absent from the collection is not treated as absent — `extract_text`,
`build_kv_map` and `extract_tables` all raise a lookup error on this
collection. -/
theorem dangling_child_raises :
    extract_text danglingBlocks (some danglingKey) = Except.error "KeyError: ghost" ∧
    build_kv_map danglingBlocks = Except.error "KeyError: ghost" ∧
    extract_tables danglingBlocks = Except.error "KeyError: ghost2" :=
  ⟨rfl, rfl, rfl⟩

/-- A key block whose only relationship is a VALUE relationship with a
dangling target id. -/
def danglingValueKey : Block :=
  { id := "k9", blockType := "KEY_VALUE_SET", entityTypes := ["KEY"],
    relationships := [{ relType := "VALUE", ids := ["nothing"] }] }

/-- Witness for the amended C3: with every CHILD target resolved (there are
none) and a dangling VALUE target, reconstruction succeeds and the value
resolves to nothing. -/
theorem dangling_relationship_behavior_witness :
    build_kv_map [danglingValueKey] = Except.ok [("", "")] ∧
    resolveValueBlock (valueMapOf [danglingValueKey]) danglingValueKey.relationships = none :=
  ⟨rfl,
   (dangling_relationship_behavior [danglingValueKey] (by decide)).2.2.2
     danglingValueKey.relationships (by decide)⟩

/-!
Characterisation of `extract_text`.
-/

theorem childStep_ok {blocks : List Block} {acc cid acc' : String}
    (h : childStep blocks acc cid = Except.ok acc') :
    acc' = acc ++ childContrib blocks cid := by
  unfold childStep at h
  unfold childContrib
  cases h2 : blockMapFind blocks cid with
  | none => rw [h2] at h; exact Except.noConfusion h
  | some w =>
    rw [h2] at h
    by_cases hw : w.blockType = "WORD"
    · simp [hw] at h ⊢
      rw [← h, String.append_assoc]
    · by_cases hs : w.blockType = "SELECTION_ELEMENT"
      · by_cases hsel : w.selectionStatus = "SELECTED"
        · simp [hw, hs, hsel] at h ⊢
          exact h.symm
        · simp [hw, hs, hsel] at h ⊢
          exact h.symm
      · simp [hw, hs] at h ⊢
        exact h.symm

theorem childText_ok (blocks : List Block) :
    ∀ (cids : List String) (acc s : String),
      childText blocks cids acc = Except.ok s →
      s = acc ++ concatContribs blocks cids := by
  intro cids
  induction cids with
  | nil =>
    intro acc s h
    cases h
    rw [concatContribs, List.foldr_nil, String.append_empty]
  | cons cid rest ih =>
    intro acc s h
    cases h2 : childStep blocks acc cid with
    | error e =>
      simp only [childText, h2] at h
      exact Except.noConfusion h
    | ok acc' =>
      simp only [childText, h2] at h
      rw [ih acc' s h, childStep_ok h2]
      simp [concatContribs, String.append_assoc]
  
theorem relsText_ok (blocks : List Block) :
    ∀ (rels : List Relationship) (acc s : String),
      relsText blocks rels acc = Except.ok s →
      s = acc ++ relsContrib blocks rels := by
  intro rels
  induction rels with
  | nil =>
    intro acc s h
    cases h
    rw [relsContrib, List.foldr_nil, String.append_empty]
  | cons rel rest ih =>
    intro acc s h
    by_cases hc : rel.relType = "CHILD" ∧ rel.ids ≠ []
    · simp only [relsText] at h
      rw [if_pos hc] at h
      cases h2 : childText blocks rel.ids acc with
      | error e =>
        rw [h2] at h
        exact Except.noConfusion h
      | ok acc' =>
        rw [h2] at h
        rw [ih acc' s h, childText_ok blocks rel.ids acc acc' h2]
        simp [relsContrib, hc, String.append_assoc]
    · simp only [relsText] at h
      rw [if_neg hc] at h
      rw [ih acc s h]
      simp [relsContrib, hc]

theorem extract_text_ok {blocks : List Block} {b : Block} {s : String}
    (h : extract_text blocks (some b) = Except.ok s) :
    s = strTrim (relsContrib blocks b.relationships) := by
  simp only [extract_text] at h
  cases h2 : relsText blocks b.relationships "" with
  | error e => rw [h2] at h; exact Except.noConfusion h
  | ok s0 =>
    rw [h2] at h
    simp only [Except.ok.injEq] at h
    rw [← h, relsText_ok blocks b.relationships "" s0 h2, String.empty_append]

/-- Claim C4: `extract_text` renders the empty string on an absent block
and on a block with no CHILD relationship; otherwise it concatenates, per
CHILD target in listed order, the word text plus a space for WORD children
and "X " for selected SELECTION_ELEMENT children (nothing for any other
child), trimming the result — so a block whose only child is a selected
SELECTION_ELEMENT renders to "X". -/
theorem extract_text_spec (blocks : List Block) (b : Block) (s : String) :
    extract_text blocks none = Except.ok "" ∧
    ((∀ rel ∈ b.relationships, rel.relType ≠ "CHILD") →
      extract_text blocks (some b) = Except.ok "") ∧
    (extract_text blocks (some b) = Except.ok s →
      s = strTrim (relsContrib blocks b.relationships)) ∧
    extract_text selBlocks (some selParent) = Except.ok "X" := by
  refine ⟨rfl, ?_, fun h => extract_text_ok h, rfl⟩
  intro hno
  have hrels : ∀ (rels : List Relationship), (∀ rel ∈ rels, rel.relType ≠ "CHILD") →
      ∀ acc, relsText blocks rels acc = Except.ok acc := by
    intro rels
    induction rels with
    | nil => intro _ acc; rfl
    | cons rel rest ih =>
      intro hno2 acc
      have hc : ¬ (rel.relType = "CHILD" ∧ rel.ids ≠ []) :=
        fun hcc => hno2 rel (List.mem_cons_self _ _) hcc.1
      simp [relsText, hc, ih (fun r hr => hno2 r (List.mem_cons_of_mem _ hr))]
  simp only [extract_text]
  rw [hrels b.relationships hno ""]
  rfl

/-- Witness for C4: the absent-block, no-CHILD and characterisation parts
at concrete blocks, and the selected SELECTION_ELEMENT example. -/
theorem extract_text_spec_witness :
    extract_text selBlocks none = Except.ok "" ∧
    extract_text selBlocks (some danglingValueKey) = Except.ok "" ∧
    ("" : String) = strTrim (relsContrib selBlocks danglingValueKey.relationships) ∧
    extract_text selBlocks (some selParent) = Except.ok "X" := by
  have h := extract_text_spec selBlocks danglingValueKey ""
  exact ⟨h.1, h.2.1 (by decide), h.2.2.1 rfl, h.2.2.2⟩

/-!
Lemmas about `parse_response`.
-/

theorem lastAliasAux_accum (a : String) :
    ∀ (bs : List Block) (acc : Option String),
      lastAliasAux a acc bs =
        match lastAliasAux a none bs with
        | some t => some t
        | none => acc := by
  intro bs
  induction bs with
  | nil => intro acc; rfl
  | cons b rest ih =>
    intro acc
    by_cases hc : b.blockType = "QUERY_RESULT" ∧ b.queryAlias = a
    · simp only [lastAliasAux, if_pos hc]
      rw [ih (some b.text)]
      cases lastAliasAux a none rest <;> rfl
    · simp only [lastAliasAux, if_neg hc]
      exact ih acc

theorem collectQR_lines :
    ∀ (blocks : List Block) (results : List (String × String)) (lines : List String),
      (collectQR blocks results lines).2 = lines ++ lineTexts blocks := by
  intro blocks
  induction blocks with
  | nil => intro results lines; simp [collectQR, lineTexts]
  | cons b rest ih =>
    intro results lines
    by_cases hqr : b.blockType = "QUERY_RESULT"
    · have hline : ¬ b.blockType = "LINE" := by rw [hqr]; decide
      by_cases halias : b.queryAlias = ""
      · simp [collectQR, hqr, halias, ih, lineTexts, hline]
      · simp [collectQR, hqr, halias, ih, lineTexts, hline]
    · by_cases hline : b.blockType = "LINE"
      · simp [collectQR, hqr, hline, ih, lineTexts]
      · simp [collectQR, hqr, hline, ih, lineTexts]

theorem collectQR_lookup (a : String) (ha : a ≠ "") :
    ∀ (blocks : List Block) (results : List (String × String)) (lines : List String),
      dictGet (collectQR blocks results lines).1 a =
        match lastAlias blocks a with
        | some t => some t
        | none => dictGet results a := by
  intro blocks
  induction blocks with
  | nil => intro results lines; rfl
  | cons b rest ih =>
    intro results lines
    by_cases hqr : b.blockType = "QUERY_RESULT"
    · by_cases halias : b.queryAlias = ""
      · have hcond : ¬ (b.blockType = "QUERY_RESULT" ∧ b.queryAlias = a) := by
          intro hcc
          rw [halias] at hcc
          exact ha hcc.2.symm
        simp only [collectQR, if_pos hqr, if_pos halias]
        rw [ih results lines]
        simp only [lastAlias, lastAliasAux, if_neg hcond]
      · by_cases ha2 : b.queryAlias = a
        · have hcond : b.blockType = "QUERY_RESULT" ∧ b.queryAlias = a := ⟨hqr, ha2⟩
          simp only [collectQR, if_pos hqr, if_neg halias]
          rw [ih (dictInsert results b.queryAlias b.text) lines]
          simp only [lastAlias, lastAliasAux, if_pos hcond]
          rw [lastAliasAux_accum a rest (some b.text)]
          cases lastAliasAux a none rest with
          | none => simp [ha2, dictGet_dictInsert_self]
          | some t => rfl
        · have hcond : ¬ (b.blockType = "QUERY_RESULT" ∧ b.queryAlias = a) :=
            fun hcc => ha2 hcc.2
          simp only [collectQR, if_pos hqr, if_neg halias]
          rw [ih (dictInsert results b.queryAlias b.text) lines]
          have hne : dictGet (dictInsert results b.queryAlias b.text) a = dictGet results a :=
            dictGet_dictInsert_ne _ _ (fun he => ha2 he.symm)
          rw [hne]
          simp only [lastAlias, lastAliasAux, if_neg hcond]
    · have hcond : ¬ (b.blockType = "QUERY_RESULT" ∧ b.queryAlias = a) :=
        fun hcc => hqr hcc.1
      by_cases hline : b.blockType = "LINE"
      · simp only [collectQR, if_neg hqr, if_pos hline]
        rw [ih results (lines ++ [b.text])]
        simp only [lastAlias, lastAliasAux, if_neg hcond]
      · simp only [collectQR, if_neg hqr, if_neg hline]
        rw [ih results lines]
        simp only [lastAlias, lastAliasAux, if_neg hcond]

theorem collectQR_filter_empty_alias :
    ∀ (blocks : List Block) (results : List (String × String)) (lines : List String),
      collectQR (blocks.filter
        (fun b => decide (¬ (b.blockType = "QUERY_RESULT" ∧ b.queryAlias = "")))) results lines =
      collectQR blocks results lines := by
  intro blocks
  induction blocks with
  | nil => intro results lines; rfl
  | cons b rest ih =>
    intro results lines
    by_cases hdrop : b.blockType = "QUERY_RESULT" ∧ b.queryAlias = ""
    · rw [List.filter_cons_of_neg (by simp [hdrop])]
      simp only [collectQR, if_pos hdrop.1, if_pos hdrop.2]
      exact ih results lines
    · rw [List.filter_cons_of_pos (by simp [hdrop])]
      by_cases hqr : b.blockType = "QUERY_RESULT"
      · have halias : ¬ b.queryAlias = "" := fun he => hdrop ⟨hqr, he⟩
        simp only [collectQR, if_pos hqr, if_neg halias]
        exact ih _ lines
      · by_cases hline : b.blockType = "LINE"
        · simp only [collectQR, if_neg hqr, if_pos hline]
          exact ih results _
        · simp only [collectQR, if_neg hqr, if_neg hline]
          exact ih results lines

theorem parse_response_full_text_lemma (dp : String → Option (Nat × Nat × Nat))
    (blocks : List Block) :
    dictGet (parse_response dp blocks) "full_text" =
      some (String.intercalate "\n" (lineTexts blocks)) := by
  simp only [parse_response]
  rw [dictGet_dictInsert_self, collectQR_lines blocks [] [], List.nil_append]

/-- Claim C10: the mapping returned by `parse_response` always carries the
key "full_text", bound to the newline-join of the LINE texts (hence the
empty string when the collection has no LINE block), and a QUERY_RESULT
block with an absent (empty) alias contributes nothing: dropping all such
blocks leaves the result unchanged. -/
theorem parse_response_full_text_spec (dp : String → Option (Nat × Nat × Nat))
    (blocks : List Block) :
    dictGet (parse_response dp blocks) "full_text" =
      some (String.intercalate "\n" (lineTexts blocks)) ∧
    (lineTexts blocks = [] →
      dictGet (parse_response dp blocks) "full_text" = some "") ∧
    parse_response dp
        (blocks.filter
          (fun b => decide (¬ (b.blockType = "QUERY_RESULT" ∧ b.queryAlias = "")))) =
      parse_response dp blocks := by
  refine ⟨parse_response_full_text_lemma dp blocks, ?_, ?_⟩
  · intro hempty
    rw [parse_response_full_text_lemma dp blocks, hempty]
    rfl
  · simp only [parse_response]
    rw [collectQR_filter_empty_alias blocks [] []]

/-- Witness for C10 at the empty collection. -/
theorem parse_response_full_text_spec_witness :
    dictGet (parse_response dateutil_parse []) "full_text" = some "" ∧
    lineTexts ([] : List Block) = [] := by
  have h := parse_response_full_text_spec dateutil_parse []
  exact ⟨h.2.1 rfl, rfl⟩

/-- Counterexample to Claim C5 as stated: `parse_response` does not always
map a QUERY_RESULT block's alias to the text carried inline on the block —
the "Date" alias is re-formatted by the date-normalization step, so the
inline text "2023-03-03" surfaces as "2023/03/03". -/
theorem parse_response_inline_counterexample :
    dateQr.text = "2023-03-03" ∧
    dictGet (parse_response dateutil_parse [dateQr]) "Date" = some "2023/03/03" ∧
    dictGet (parse_response dateutil_parse [dateQr]) "Date" ≠ some "2023-03-03" :=
  ⟨rfl, rfl, by decide⟩

/-- Claim C5 (amended): `parse_response` maps every alias other than
"Date" (which is subsequently normalized) and "full_text" (which is
overwritten by the accumulated text) to the inline text of the last
QUERY_RESULT block carrying that alias, with no entry at all when no such
block exists; and the "full_text" entry is the newline-join of the LINE
texts in input order. -/
theorem parse_response_alias_spec (dp : String → Option (Nat × Nat × Nat))
    (blocks : List Block) (a : String) (ha0 : a ≠ "") (haDate : a ≠ "Date")
    (haFull : a ≠ "full_text") :
    dictGet (parse_response dp blocks) a = lastAlias blocks a ∧
    dictGet (parse_response dp blocks) "full_text" =
      some (String.intercalate "\n" (lineTexts blocks)) := by
  refine ⟨?_, parse_response_full_text_lemma dp blocks⟩
  have hbase : dictGet (collectQR blocks [] []).1 a = lastAlias blocks a := by
    rw [collectQR_lookup a ha0 blocks [] []]
    cases lastAlias blocks a <;> rfl
  cases hdt : dictGet (collectQR blocks [] []).1 "Date" with
  | none =>
    simp only [parse_response, hdt]
    rw [dictGet_dictInsert_ne _ _ haFull]
    exact hbase
  | some dtext =>
    cases hp : dp dtext with
    | none =>
      simp only [parse_response, hdt, hp]
      rw [dictGet_dictInsert_ne _ _ haFull]
      exact hbase
    | some ymd =>
      simp only [parse_response, hdt, hp]
      rw [dictGet_dictInsert_ne _ _ haFull, dictGet_dictInsert_ne _ _ haDate]
      exact hbase

/-- Witness for the amended C5: the absent alias "Title" has no entry, and
"full_text" holds the (here empty) line join. -/
theorem parse_response_alias_spec_witness :
    dictGet (parse_response dateutil_parse [dateQr]) "Title" = lastAlias [dateQr] "Title" ∧
    dictGet (parse_response dateutil_parse [dateQr]) "full_text" =
      some (String.intercalate "\n" (lineTexts [dateQr])) :=
  parse_response_alias_spec dateutil_parse [dateQr] "Title"
    (by decide) (by decide) (by decide)

/-- Claim C6: the extracted "Date" text is reparsed and reformatted as
`YYYY/MM/DD` when the (lenient, spec-modelled) date parser accepts it —
concretely "2023-03-03" becomes "2023/03/03" — and is retained unchanged
when parsing fails (the warning branch), concretely for "not a date";
`parse_response` is total, so no exception escapes. -/
theorem date_normalization_spec (dp : String → Option (Nat × Nat × Nat))
    (blocks : List Block) (dtext : String)
    (hd : dictGet (collectQR blocks [] []).1 "Date" = some dtext) :
    (∀ y m d : Nat, dp dtext = some (y, m, d) →
      dictGet (parse_response dp blocks) "Date" = some (fmtDate y m d)) ∧
    (dp dtext = none → dictGet (parse_response dp blocks) "Date" = some dtext) ∧
    dateutil_parse "2023-03-03" = some (2023, 3, 3) ∧
    fmtDate 2023 3 3 = "2023/03/03" ∧
    dateutil_parse "not a date" = none := by
  refine ⟨?_, ?_, rfl, rfl, rfl⟩
  · intro y m d hp
    simp only [parse_response, hd, hp]
    rw [dictGet_dictInsert_ne _ _ (by decide : ("Date" : String) ≠ "full_text"),
      dictGet_dictInsert_self]
  · intro hp
    simp only [parse_response, hd, hp]
    rw [dictGet_dictInsert_ne _ _ (by decide : ("Date" : String) ≠ "full_text")]
    exact hd

/-- Witness for C6: the parseable and unparseable concrete dates. -/
theorem date_normalization_spec_witness :
    dictGet (parse_response dateutil_parse [dateQr]) "Date" = some (fmtDate 2023 3 3) ∧
    dictGet (parse_response dateutil_parse [badDateQr]) "Date" = some "not a date" := by
  have h1 := date_normalization_spec dateutil_parse [dateQr] "2023-03-03" rfl
  have h2 := date_normalization_spec dateutil_parse [badDateQr] "not a date" rfl
  exact ⟨h1.1 2023 3 3 rfl, h2.2.1 rfl⟩

/-!
Lemmas about `load_config` and the output row shaping.
-/

theorem load_collect_missing (env : String → String) :
    ∀ (vars : List String) (cfg : List (String × String)) (missing : List String),
      (load_collect env vars cfg missing).2 =
        missing ++ vars.filter (fun v => decide (env v = "")) := by
  intro vars
  induction vars with
  | nil => intro cfg missing; simp [load_collect]
  | cons v rest ih =>
    intro cfg missing
    by_cases hv : env v = ""
    · rw [List.filter_cons_of_pos (by simp [hv])]
      simp only [load_collect, if_pos hv]
      rw [ih cfg (missing ++ [v])]
      simp
    · rw [List.filter_cons_of_neg (by simp [hv])]
      simp only [load_collect, if_neg hv]
      exact ih _ missing

theorem load_collect_frame (env : String → String) :
    ∀ (vars : List String) (cfg : List (String × String)) (missing : List String)
      (k : String), k ∉ vars →
      dictGet (load_collect env vars cfg missing).1 k = dictGet cfg k := by
  intro vars
  induction vars with
  | nil => intro cfg missing k _; rfl
  | cons v rest ih =>
    intro cfg missing k hk
    have hkv : k ≠ v := fun he => hk (he ▸ List.mem_cons_self _ _)
    have hkrest : k ∉ rest := fun hm => hk (List.mem_cons_of_mem _ hm)
    by_cases hv : env v = ""
    · simp only [load_collect, if_pos hv]
      exact ih cfg (missing ++ [v]) k hkrest
    · simp only [load_collect, if_neg hv]
      rw [ih _ missing k hkrest, dictGet_dictInsert_ne _ _ hkv]

theorem load_collect_get (env : String → String) :
    ∀ (vars : List String) (cfg : List (String × String)) (missing : List String)
      (v : String), vars.Nodup → v ∈ vars → env v ≠ "" →
      dictGet (load_collect env vars cfg missing).1 v = some (env v) := by
  intro vars
  induction vars with
  | nil => intro cfg missing v _ hmem _; cases hmem
  | cons w rest ih =>
    intro cfg missing v hnd hmem hv
    by_cases hvw : v = w
    · subst hvw
      simp only [load_collect, if_neg hv]
      rw [load_collect_frame env rest _ missing v (List.nodup_cons.mp hnd).1,
        dictGet_dictInsert_self]
    · have hmem' : v ∈ rest := by
        rcases List.mem_cons.mp hmem with h | h
        · exact absurd h hvw
        · exact h
      by_cases hw : env w = ""
      · simp only [load_collect, if_pos hw]
        exact ih _ _ v (List.nodup_cons.mp hnd).2 hmem' hv
      · simp only [load_collect, if_neg hw]
        exact ih _ _ v (List.nodup_cons.mp hnd).2 hmem' hv

/-- Claim C7: missing required configuration is a fatal startup error: in
the query pipeline, `load_config` fails with one message enumerating
exactly the missing variables (all seven when none is set), and a
successful load carries the environment's own values, none defaulted; in
the batch pipeline, the startup check fails whenever either required
setting is unset, naming both required variables. -/
theorem load_config_spec (env : String → String) :
    (pi_env_vars.filter (fun v => decide (env v = "")) ≠ [] →
      load_config env = Except.error ("Missing environment variables: " ++
        String.intercalate ", " (pi_env_vars.filter (fun v => decide (env v = ""))))) ∧
    (∀ cfg, load_config env = Except.ok cfg →
      ∀ v ∈ pi_env_vars, env v ≠ "" ∧ dictGet cfg v = some (env v)) ∧
    load_config (fun _ => "") = Except.error
      "Missing environment variables: AWS_ACCESS_KEY_ID, AWS_SECRET_ACCESS_KEY, AWS_REGION, S3_BUCKET_NAME, OPENAI_API_KEY, GOOGLE_SHEET_ID, GOOGLE_CREDENTIALS_FILE" ∧
    (∀ env2 : String → String, env2 "S3_BUCKET" = "" ∨ env2 "SPREADSHEET_ID" = "" →
      pdf_main_check env2 = Except.error
        "S3_BUCKET and SPREADSHEET_ID environment variables must be set") := by
  have hm := load_collect_missing env pi_env_vars [] []
  rw [List.nil_append] at hm
  refine ⟨?_, ?_, rfl, ?_⟩
  · intro hne
    simp only [load_config]
    rw [hm, if_neg hne]
  · intro cfg hok v hv
    by_cases hmm : (load_collect env pi_env_vars [] []).2 = []
    · simp only [load_config] at hok
      rw [if_pos hmm] at hok
      have hempty : ∀ w ∈ pi_env_vars, ¬ env w = "" := by
        rw [hm] at hmm
        intro w hw hwe
        have : w ∈ pi_env_vars.filter (fun v => decide (env v = "")) :=
          List.mem_filter.mpr ⟨hw, by simp [hwe]⟩
        rw [hmm] at this
        cases this
      have hvne := hempty v hv
      refine ⟨hvne, ?_⟩
      have := load_collect_get env pi_env_vars [] [] v (by decide) hv hvne
      rw [← this]
      cases hok
      rfl
    · simp only [load_config] at hok
      rw [if_neg hmm] at hok
      exact Except.noConfusion hok
  · intro env2 hor
    simp only [pdf_main_check, if_pos hor]

/-- Witness for C7: the all-unset environment fails listing all seven
variables; the all-set environment loads every value verbatim; the batch
check fails on the all-unset environment. -/
theorem load_config_spec_witness :
    load_config (fun _ => "") = Except.error
      "Missing environment variables: AWS_ACCESS_KEY_ID, AWS_SECRET_ACCESS_KEY, AWS_REGION, S3_BUCKET_NAME, OPENAI_API_KEY, GOOGLE_SHEET_ID, GOOGLE_CREDENTIALS_FILE" ∧
    ((fun _ => "x") "AWS_REGION" : String) ≠ "" ∧
    dictGet [("AWS_ACCESS_KEY_ID", "x"), ("AWS_SECRET_ACCESS_KEY", "x"),
      ("AWS_REGION", "x"), ("S3_BUCKET_NAME", "x"), ("OPENAI_API_KEY", "x"),
      ("GOOGLE_SHEET_ID", "x"), ("GOOGLE_CREDENTIALS_FILE", "x")] "AWS_REGION" =
      some ((fun _ => "x") "AWS_REGION") ∧
    pdf_main_check (fun _ => "") = Except.error
      "S3_BUCKET and SPREADSHEET_ID environment variables must be set" := by
  have h0 := load_config_spec (fun _ => "")
  have hx := (load_config_spec (fun _ => "x")).2.1
    [("AWS_ACCESS_KEY_ID", "x"), ("AWS_SECRET_ACCESS_KEY", "x"), ("AWS_REGION", "x"),
     ("S3_BUCKET_NAME", "x"), ("OPENAI_API_KEY", "x"), ("GOOGLE_SHEET_ID", "x"),
     ("GOOGLE_CREDENTIALS_FILE", "x")] rfl "AWS_REGION" (by decide)
  exact ⟨h0.2.2.1, hx.1, hx.2, h0.2.2.2 (fun _ => "") (Or.inl rfl)⟩

theorem foldl_append_table (key : String) :
    ∀ (ts : List (List (List String))) (tw : List (List String)),
      ts.foldl (fun w t => append_table_data w t key) tw =
        tw ++ (ts.map (fun t => t.map (fun row => key :: row))).flatten := by
  intro ts
  induction ts with
  | nil => intro tw; simp
  | cons t rest ih =>
    intro tw
    rw [List.foldl_cons, ih (append_table_data tw t key)]
    simp [append_table_data]

/-- Claim C8: `process_pdf` appends exactly one form row, shaped by the
destination sheet's header row with a case-sensitive exact lookup into the
key-value mapping defaulting to the empty string, and appends one
table-tab row per reconstructed table row, each prefixed with the source
document key — so one 2-by-2 table contributes exactly two rows. -/
theorem process_pdf_spec (blocks : List Block) (fw tw : List (List String)) (key : String)
    (kv : List (String × String)) (ts : List (List (List String)))
    (fws tws : List (List String))
    (hkv : build_kv_map blocks = Except.ok kv)
    (hts : extract_tables blocks = Except.ok ts)
    (h : process_pdf blocks fw tw key = Except.ok (fws, tws)) :
    fws = fw ++ [(fw.headD []).map (fun hd => (dictGet kv hd).getD "")] ∧
    fws.length = fw.length + 1 ∧
    tws = tw ++ (ts.map (fun t => t.map (fun row => key :: row))).flatten ∧
    tws.length = tw.length + (ts.map List.length).sum := by
  simp only [process_pdf, hkv, hts, Except.ok.injEq, Prod.mk.injEq] at h
  obtain ⟨h1, h2⟩ := h
  refine ⟨?_, ?_, ?_, ?_⟩
  · rw [← h1]; rfl
  · rw [← h1]; simp [append_form_data]
  · rw [← h2, foldl_append_table]
  · rw [← h2, foldl_append_table]
    simp [List.length_flatten, List.map_map, Function.comp_def, List.length_map]

/-- Witness for C8: one document with two key-value pairs and one 2-by-2
table adds one form row and two prefixed table rows. -/
theorem process_pdf_spec_witness :
    build_kv_map docBlocks = Except.ok [("Invoice", "123"), ("Total", "45")] ∧
    extract_tables docBlocks = Except.ok [[["A", "B"], ["C", "D"]]] ∧
    process_pdf docBlocks [["Invoice", "Total"]] [] "doc.pdf" =
      Except.ok ([["Invoice", "Total"], ["123", "45"]],
        [["doc.pdf", "A", "B"], ["doc.pdf", "C", "D"]]) ∧
    ([["Invoice", "Total"], ["123", "45"]] : List (List String)).length =
      ([["Invoice", "Total"]] : List (List String)).length + 1 ∧
    ([["doc.pdf", "A", "B"], ["doc.pdf", "C", "D"]] : List (List String)).length =
      ([] : List (List String)).length +
        (([[["A", "B"], ["C", "D"]]] : List (List (List String))).map List.length).sum := by
  have h := process_pdf_spec docBlocks [["Invoice", "Total"]] [] "doc.pdf"
    [("Invoice", "123"), ("Total", "45")] [[["A", "B"], ["C", "D"]]]
    [["Invoice", "Total"], ["123", "45"]]
    [["doc.pdf", "A", "B"], ["doc.pdf", "C", "D"]] rfl rfl rfl
  exact ⟨rfl, rfl, rfl, h.2.1, h.2.2.2⟩

theorem dictGet_isSome {κ α : Type} [DecidableEq κ] :
    ∀ (m : List (κ × α)) (k : κ), k ∈ m.map Prod.fst → (dictGet m k).isSome := by
  intro m
  induction m with
  | nil => intro k hk; cases hk
  | cons p rest ih =>
    intro k hk
    by_cases hp : p.1 = k
    · simp [dictGet, hp]
    · rcases List.mem_cons.mp hk with h | h
      · exact absurd h.symm hp
      · simp only [dictGet, if_neg hp]
        exact ih k h

/-- Counterexample to Claim C9 as stated: absent cells of a sparse table
are not rendered as empty text — the sparse example's second row is
`["C"]`, not `["C", ""]`. -/
theorem sparse_table_counterexample :
    extract_tables sparseBlocks = Except.ok [[["A", "B"], ["C"]]] ∧
    extract_tables sparseBlocks ≠ Except.ok [[["A", "B"], ["C", ""]]] := by
  refine ⟨rfl, ?_⟩
  intro h
  have h0 : (Except.ok [[["A", "B"], ["C"]]] : Except String (List (List (List String)))) =
      Except.ok [[["A", "B"], ["C", ""]]] :=
    ((rfl : extract_tables sparseBlocks =
        Except.ok [[["A", "B"], ["C"]]]).symm).trans h
  injection h0 with h1
  exact absurd h1 (by decide)

/-- Claim C9 (amended): a column index absent from a row's observed set is
skipped, not rendered as empty text: each reconstructed row holds exactly
one value per observed cell, the empty-string default of `row.get(c, "")`
is never exercised because every emitted column index is an observed key,
and the sparse example reconstructs to `[["A","B"],["C"]]`. -/
theorem sparse_table_skip_spec (row : List (Nat × String)) :
    (rowValuesOf row).length = row.length ∧
    (∀ c ∈ sortNat (row.map Prod.fst), (dictGet row c).isSome) ∧
    extract_tables sparseBlocks = Except.ok [[["A", "B"], ["C"]]] := by
  refine ⟨?_, ?_, rfl⟩
  · rw [rowValuesOf, List.length_map, (sortNat_perm _).length_eq, List.length_map]
  · intro c hc
    exact dictGet_isSome row c ((sortNat_perm _).mem_iff.mp hc)

/-- Witness for the amended C9 at the sparse example's second row. -/
theorem sparse_table_skip_spec_witness :
    (rowValuesOf [(1, "C")]).length = [(1, "C")].length ∧
    (1 ∈ sortNat ([(1, "C")].map Prod.fst) ∧ (dictGet [(1, "C")] 1).isSome) := by
  have h := sparse_table_skip_spec [(1, "C")]
  exact ⟨h.1, by decide, h.2.1 1 (by decide)⟩
